import Mathlib

/-!
Shallow embedding of the GoLang-Project- distributed task scheduler.

Namespace `Sched` — scheduler side (packages `domain`, `scheduler`, `worker`,
plus the in-memory repositories of the scheduler binary): tasks with string
IDs, a FIFO queue, the Submit/Cancel operations and the worker execute step.

Namespace `Svc` — service side (packages `internal/domain`,
`internal/api/service`, `internal/repository/mock`): workflows, workflow runs,
task runs with UUID-style IDs (modelled as Nat) and the mock in-memory
repositories.

Go `time.Time` values are modelled as `Nat` instants (the zero value is `0`,
matching `Time.IsZero`); `*time.Time` pointers are `Option Nat`, except where
pointer aliasing itself is at issue, where they are `Option` heap addresses.
Go `int` / `time.Duration` arithmetic is `Int` with explicit two's-complement
wrapping where overflow can occur.
-/

namespace Sched

/-! ## domain: TaskStatus, Task (src/domain/worker.go) -/

inductive TaskStatus where
  | pending
  | queued
  | running
  | succeeded
  | failed
  | retrying
  deriving DecidableEq, Repr

/-- Model of `domain.Task` (src/domain/worker.go). `Payload` is irrelevant to every
claim and omitted; times are `Nat` instants, the zero `time.Time` is `0`. -/
structure Task where
  id : String
  name : String
  status : TaskStatus := .pending
  priority : Int := 0
  maxRetries : Int := 0
  retryCount : Int := 0
  startedAt : Option Nat := none
  finishedAt : Option Nat := none
  createdAt : Nat := 0
  updatedAt : Nat := 0
  errMsg : String := ""
  deriving DecidableEq, Repr

/-- Model of `domain.PriorityLow`. -/
def PriorityLow : Int := 1

/-- Model of `domain.PriorityHigh`. -/
def PriorityHigh : Int := 10

/-- Model of `Task.Validate` (src/domain/worker.go): returns the message of the first
violated rule, `none` when the task is valid. -/
def Task.Validate (t : Task) : Option String :=
  if t.id = "" then some "task ID must not be empty"
  else if t.name = "" then some "task Name must not be empty"
  else if t.priority < PriorityLow ∨ t.priority > PriorityHigh then
    some "task Priority must be between 1 and 10"
  else if t.maxRetries < 0 then some "task MaxRetries must not be negative"
  else none

/-- Model of `Task.CanRetry` (src/domain/worker.go). -/
def Task.CanRetry (t : Task) : Bool := t.retryCount < t.maxRetries

/-- Model of `Task.IsTerminal` (src/domain/worker.go). -/
def Task.IsTerminal (t : Task) : Bool :=
  t.status = TaskStatus.succeeded || t.status = TaskStatus.failed

/-! ## scheduler: MemQueue (src/scheduler/queue.go)

The buffer `buf []*domain.Task` is a list; `Enqueue` appends at the tail,
`Dequeue` removes the head (the blocking/cancellation path returns
`ErrQueueEmpty`, modelled as `none`). -/

abbrev MemQueue := List Task

/-- Model of `MemQueue.Enqueue`: append task to the tail of the buffer. -/
def Enqueue (q : MemQueue) (t : Task) : MemQueue := q ++ [t]

/-- Model of `MemQueue.Dequeue`: remove and return the head of the buffer; on an empty
buffer the Go code blocks and, under cancellation, reports `ErrQueueEmpty`
(modelled `none`). -/
def Dequeue (q : MemQueue) : Option (Task × MemQueue) :=
  match q with
  | [] => none
  | t :: rest => some (t, rest)

/-- Repeatedly `Dequeue` until the buffer is empty, collecting the tasks in
the order a single consumer receives them. -/
def DrainAll (q : MemQueue) : List Task :=
  match h : Dequeue q with
  | none => []
  | some (t, rest) =>
      have : rest.length < q.length := by
        cases q with
        | nil => simp [Dequeue] at h
        | cons a l =>
            simp only [Dequeue, Option.some.injEq, Prod.mk.injEq] at h
            simp [← h.2]
      t :: DrainAll rest
termination_by q.length

/-! ## scheduler: sentinel errors and Scheduler (src/domain/errors.go,
src/scheduler/queue.go)

The task repository (the scheduler binary's in-memory `memTaskRepo`,
src/cmd/scheduler/main.go) stores copies keyed by ID; it is a partial map from
ID to the stored record. `Save` never fails; `FindByID` returns the
`ErrTaskNotFound` sentinel when the ID is absent. -/

inductive SchedErr where
  | taskNotFound
  | taskInvalid (rule : String)
  deriving DecidableEq, Repr

abbrev TaskRepo := String → Option Task

/-- Model of `memTaskRepo.Save`: store a copy of the task under its ID. -/
def SaveTask (r : TaskRepo) (t : Task) : TaskRepo :=
  fun i => if i = t.id then some t else r i

/-- Scheduler state: the task repository plus the shared `MemQueue`. -/
structure SchedState where
  repo : TaskRepo
  queue : MemQueue

/-- Model of `Scheduler.Submit` (src/scheduler/queue.go lines 100-116): validate; on
violation return `ErrTaskInvalid` wrapped with the rule, touching neither the
repository nor the queue; otherwise set status Queued, stamp UpdatedAt (and
CreatedAt when zero), persist, then enqueue. -/
def Submit (s : SchedState) (task : Task) (now : Nat) : Except SchedErr SchedState :=
  match task.Validate with
  | some rule => .error (.taskInvalid rule)
  | none =>
      let task := { task with
        status := .queued
        updatedAt := now
        createdAt := if task.createdAt = 0 then now else task.createdAt }
      .ok { repo := SaveTask s.repo task, queue := Enqueue s.queue task }

/-- Model of `Scheduler.Cancel` (src/scheduler/queue.go lines 118-131): load; not-found
propagates; a terminal task is a no-op; otherwise persist status Failed with a
fresh UpdatedAt. `FinishedAt` is left untouched. -/
def Cancel (s : SchedState) (taskID : String) (now : Nat) : Except SchedErr SchedState :=
  match s.repo taskID with
  | none => .error .taskNotFound
  | some t =>
      if t.IsTerminal then .ok s
      else .ok { s with
        repo := SaveTask s.repo { t with status := .failed, updatedAt := now } }

/-! ## worker: DefaultBackoff (src/worker/worker.go lines 22-30)

`time.Duration(1<<uint(attempt)) * time.Second` is int64 arithmetic: the
untyped 1 takes type `time.Duration` (int64), the shift of an int64 by 64 or
more yields 0, and the multiplication wraps two's-complement. -/

/-- Two's-complement wrap into the int64 range. -/
def wrap64 (x : Int) : Int := (x + 2 ^ 63) % 2 ^ 64 - 2 ^ 63

/-- Nanoseconds in `time.Second`. -/
def secondNs : Int := 1000000000

/-- Model of `1 << uint(attempt)` at type int64 (Go: a shift count ≥ 64 gives 0). -/
def shiftOne (attempt : Nat) : Int :=
  if attempt ≥ 64 then 0 else wrap64 (2 ^ attempt)

/-- Model of `worker.DefaultBackoff` in nanoseconds, with the int64 wrapping Go
performs: `d := time.Duration(1<<uint(attempt)) * time.Second;
if d > 30*time.Second { d = 30 * time.Second }; return d`. -/
def DefaultBackoff (attempt : Nat) : Int :=
  let d := wrap64 (shiftOne attempt * secondNs)
  if d > 30 * secondNs then 30 * secondNs else d

/-! ## worker: execute (src/worker/worker.go lines 128-167)

`res` is the handler's result for this invocation (`none` = success, `some
msg` = error with message `msg`); `now` is the instant execution starts,
`fin` the instant the handler returns. The step records every task value it
persists, in order, and whether it re-enqueued the task (the uncancelled
path: the backoff wait completes). -/

structure ExecOut where
  task : Task
  saves : List Task
  requeued : Bool
  deriving DecidableEq, Repr

def Execute (res : Option String) (t : Task) (now fin : Nat) : ExecOut :=
  let t1 : Task := { t with status := .running, startedAt := some now, updatedAt := now }
  match res with
  | none =>
      let t2 : Task := { t1 with
        updatedAt := fin, finishedAt := some fin, status := .succeeded, errMsg := "" }
      { task := t2, saves := [t1, t2], requeued := false }
  | some msg =>
      let te : Task := { t1 with updatedAt := fin, errMsg := msg }
      if te.CanRetry then
        let t2 : Task := { te with retryCount := te.retryCount + 1, status := .retrying }
        { task := t2, saves := [t1, t2], requeued := true }
      else
        let t2 : Task := { te with finishedAt := some fin, status := .failed }
        { task := t2, saves := [t1, t2], requeued := false }

/-- The worker loop (`Worker.Run` + `MemQueue`) specialised to a handler that
returns the error `msg` on every invocation: execute the task; while the
execute step re-enqueues it, the loop dequeues it again and executes again.
Returns the number of handler invocations and the task value finally
persisted. `now` advances between invocations; the exact instants are
irrelevant to the claims. -/
def RunFailing (msg : String) (now : Nat) (t : Task) : Nat × Task :=
  let out := Execute (some msg) t now (now + 1)
  if h : out.requeued then
    let r := RunFailing msg (now + 2) out.task
    (r.1 + 1, r.2)
  else
    (1, out.task)
termination_by (t.maxRetries - t.retryCount).toNat
decreasing_by
  have h2 : (Execute (some msg) t now (now + 1)).requeued = true := h
  by_cases hc : t.retryCount < t.maxRetries
  · simp only [Execute, Task.CanRetry, hc, decide_True, if_true]
    omega
  · simp [Execute, Task.CanRetry, hc] at h2

end Sched

namespace Svc

/-! ## internal/domain: Status, Workflow, WorkflowRun, TaskRun
(src/unnamed/part_004 second file)

UUIDs are modelled as `Nat`. -/

inductive Status where
  | pending
  | running
  | success
  | failed
  deriving DecidableEq, Repr

/-- Model of `internal/domain.Workflow`. -/
structure Workflow where
  id : Nat
  name : String := ""
  description : String := ""
  scheduleCron : String := ""
  isActive : Bool := false
  createdAt : Nat := 0
  deriving DecidableEq, Repr

/-- Model of `internal/domain.WorkflowRun`. `FinishedAt` is `Option Nat` (instant);
the zero value of the pointer field is `none`. -/
structure WorkflowRun where
  id : Nat
  workflowID : Nat
  status : Status
  startedAt : Nat
  finishedAt : Option Nat := none
  deriving DecidableEq, Repr

/-- Model of `internal/domain.TaskDependency`: task `taskID` waits for
`dependsOnTaskID`. -/
structure TaskDependency where
  taskID : Nat
  dependsOnTaskID : Nat
  deriving DecidableEq, Repr

/-- Model of `internal/repository.ErrNotFound` sentinel. -/
inductive RepoErr where
  | notFound
  deriving DecidableEq, Repr

/-! ## internal/repository/mock: WorkflowRepo, WorkflowRunRepo
(src/internal/repository/mock/mock.go)

Stores are partial maps from ID to stored record; `Create` stores a copy and
never fails, `GetByID` returns the `ErrNotFound` sentinel when absent. -/

abbrev WorkflowStore := Nat → Option Workflow

abbrev RunStore := Nat → Option WorkflowRun

/-- Model of `mock.WorkflowRepo.GetByID` (mock.go lines 37-46). -/
def GetWorkflow (s : WorkflowStore) (id : Nat) : Except RepoErr Workflow :=
  match s id with
  | none => .error .notFound
  | some wf => .ok wf

/-- Model of `mock.WorkflowRunRepo.Create`: store a copy keyed by the run's ID. -/
def CreateRun (s : RunStore) (run : WorkflowRun) : RunStore :=
  fun i => if i = run.id then some run else s i

/-! ## internal/api/service: TriggerWorkflow (src/unnamed/part_004 lines 74-89)

`uuid.New()` for the fresh run is passed in as `newRunID`; `time.Now().UTC()`
as `now`. The function checks only that the workflow exists; it reads neither
the workflow's tasks nor its `TaskDependency` rows, and enqueues nothing. -/

def TriggerWorkflow (wfs : WorkflowStore) (runs : RunStore) (workflowID newRunID now : Nat) :
    Except RepoErr (WorkflowRun × RunStore) :=
  match GetWorkflow wfs workflowID with
  | .error e => .error e
  | .ok _ =>
      let run : WorkflowRun := {
        id := newRunID
        workflowID := workflowID
        status := .pending
        startedAt := now
        finishedAt := none }
      .ok (run, CreateRun runs run)

/-- Status of the run `TriggerWorkflow` creates, `none` on error. -/
def TriggeredRunStatus (wfs : WorkflowStore) (runs : RunStore)
    (workflowID newRunID now : Nat) : Option Status :=
  ((TriggerWorkflow wfs runs workflowID newRunID now).toOption).map
    (fun p => p.1.status)

/-- Modelled from the spec: the "standard topological check" the spec requires
for cycle detection in a workflow's dependency graph; no such check exists
anywhere in the source. Kahn-style: repeatedly peel off tasks all of whose
upstream dependencies have already been peeled; a cycle remains iff some
tasks can never be peeled. -/
def hasCycleGo (deps : List TaskDependency) (tasks : List Nat) (fuel : Nat) : Bool :=
  match fuel with
  | 0 => !tasks.isEmpty
  | fuel + 1 =>
      if tasks.isEmpty then false
      else
        let ready := tasks.filter
          (fun t => !(deps.any (fun d => d.taskID = t && tasks.contains d.dependsOnTaskID)))
        if ready.isEmpty then true
        else hasCycleGo deps (tasks.filter (fun t => !(ready.contains t))) fuel

/-- Modelled from the spec: a workflow's dependency graph is cyclic. -/
def hasCycle (tasks : List Nat) (deps : List TaskDependency) : Bool :=
  hasCycleGo deps tasks tasks.length

/-! ## internal/repository/mock: TaskRunRepo with pointer aliasing
(src/internal/repository/mock/mock.go lines 240-271)

`Create` and `GetByID` copy records with `cp := *tr` — a shallow copy: the
`FinishedAt *time.Time` pointer is copied as a pointer, so the returned
record and the stored record point at the same `time.Time` cell. To express
this, `FinishedAt` here is an `Option` address into an explicit heap of
`time.Time` cells, and a record copy duplicates the address, never the cell. -/

/-- Heap of `time.Time` cells: address to instant. -/
abbrev Heap := Nat → Nat

def WriteHeap (h : Heap) (addr v : Nat) : Heap :=
  fun a => if a = addr then v else h a

/-- Model of `internal/domain.TaskRun` with `FinishedAt` as a pointer (heap address). -/
structure TaskRun where
  id : Nat
  workflowRunID : Nat
  taskID : Nat
  status : Status
  attempt : Int := 1
  startedAt : Nat := 0
  finishedAtPtr : Option Nat := none
  logs : String := ""
  deriving DecidableEq, Repr

abbrev TaskRunStore := Nat → Option TaskRun

/-- Model of `mock.TaskRunRepo.Create`: `cp := *tr; store[tr.ID] = &cp` — the stored
record is a field-for-field copy of the argument, sharing `FinishedAt`. -/
def CreateTaskRun (s : TaskRunStore) (tr : TaskRun) : TaskRunStore :=
  fun i => if i = tr.id then some tr else s i

/-- Model of `mock.TaskRunRepo.GetByID` (mock.go lines 250-259): `cp := *tr;
return &cp` — the returned record is a field-for-field copy of the stored
record; in particular `finishedAtPtr` is the same address. -/
def GetTaskRun (s : TaskRunStore) (id : Nat) : Except RepoErr TaskRun :=
  match s id with
  | none => .error .notFound
  | some tr => .ok tr

/-- Model of `mock.TaskRunRepo.UpdateStatus` (mock.go lines 261-271): mutate the stored
record in place: `tr.Status = status; tr.FinishedAt = finishedAt` — the store
keeps the caller's pointer. -/
def UpdateTaskRunStatus (s : TaskRunStore) (id : Nat) (status : Status)
    (finishedAt : Option Nat) : Except RepoErr TaskRunStore :=
  match s id with
  | none => .error .notFound
  | some tr =>
      .ok (fun i => if i = id then
        some { tr with status := status, finishedAtPtr := finishedAt } else s i)

/-- What a reader of the repository observes for a task run: its scalar
fields together with the dereferenced `FinishedAt` instant. -/
def ObservedTaskRun (h : Heap) (s : TaskRunStore) (id : Nat) :
    Option (Status × Int × Option Nat) :=
  (s id).map (fun tr => (tr.status, tr.attempt, tr.finishedAtPtr.map h))

end Svc

/-! ## Concrete instances used by witnesses and counterexamples -/

namespace Sched

/-- A valid task (cf. the spec's happy-path scenario). -/
def sampleTask : Task := { id := "t1", name := "extract", priority := 5, maxRetries := 0 }

/-- A task whose `Priority` was left at the zero value. -/
def zeroPriorityTask : Task := { id := "t2", name := "x", priority := 0 }

/-- A task configured with MaxRetries = 1, as in the spec's exhausted-retries
scenario. -/
def retryOnceTask : Task := { id := "r1", name := "h", priority := 5, maxRetries := 1 }

/-- Empty scheduler state: empty repository, empty queue. -/
def emptySched : SchedState := { repo := fun _ => none, queue := [] }

/-- The worker persists each record of `saves` in order through `Save`. -/
def ApplySaves (r : TaskRepo) (l : List Task) : TaskRepo := l.foldl SaveTask r

/-- State after `Submit(sampleTask)` at instant 10. -/
def afterSubmit : SchedState := (Submit emptySched sampleTask 10).toOption.getD emptySched

/-- The task the worker dequeues from the queue `Submit` filled. -/
def dequeuedTask : Task := ((Dequeue afterSubmit.queue).map Prod.fst).getD sampleTask

/-- Repository after the worker executed the dequeued task with a succeeding
handler (the dequeue-and-execute step, at instants 20/21). -/
def repoAfterRun : TaskRepo :=
  ApplySaves afterSubmit.repo (Execute none dequeuedTask 20 21).saves

/-- Re-submitting the same task after its persisted status became terminal. -/
def afterResubmit : Except SchedErr SchedState :=
  Submit { repo := repoAfterRun, queue := [] } sampleTask 30

/-- Cancelling the still-queued (non-terminal) task. -/
def afterCancel : Except SchedErr SchedState := Cancel afterSubmit "t1" 15

/-- A state whose repository holds a task with a terminal persisted status. -/
def termState : SchedState :=
  { repo := SaveTask (fun _ => none) { sampleTask with status := .succeeded }, queue := [] }

end Sched

namespace Svc

def wfSample : Workflow := { id := 7, name := "daily" }

/-- A workflow store holding exactly `wfSample` (ID 7). -/
def wfStore1 : WorkflowStore := fun i => if i = 7 then some wfSample else none

def noRuns : RunStore := fun _ => none

/-- The cyclic dependency set of the spec's scenario 5: A→B→A
(task 1 depends on task 2 and task 2 depends on task 1). -/
def cycDeps : List TaskDependency := [⟨1, 2⟩, ⟨2, 1⟩]

/-- A stored task run whose `FinishedAt` points at heap cell 0. -/
def trSample : TaskRun :=
  { id := 1, workflowRunID := 2, taskID := 3, status := .success, finishedAtPtr := some 0 }

def trStore1 : TaskRunStore := CreateTaskRun (fun _ => none) trSample

/-- Heap whose every `time.Time` cell holds the instant 5. -/
def heap5 : Heap := fun _ => 5

end Svc

/-! # Theorems -/

/-! ## C5 — queue FIFO -/

/-- A single consumer that repeatedly dequeues receives exactly the buffer,
in order. -/
theorem Sched.DrainAll_eq : ∀ q : Sched.MemQueue, Sched.DrainAll q = q
  | [] => by
      rw [Sched.DrainAll]
      simp [Sched.Dequeue]
  | t :: rest => by
      rw [Sched.DrainAll]
      simp [Sched.Dequeue, Sched.DrainAll_eq rest]

/-- C5. Queue FIFO: if enqueue(A) happens before enqueue(B) (single
producer), a single consumer's successive Dequeue calls return A strictly
before B — A sits at position `q.length` and B at `q.length + 1` of the
consumption order — and Dequeue always removes and returns the head
(earliest enqueued) element of the current buffer. -/
theorem queue_fifo (q : Sched.MemQueue) (A B : Sched.Task) :
    Sched.DrainAll (Sched.Enqueue (Sched.Enqueue q A) B) = q ++ [A, B] ∧
    (Sched.DrainAll (Sched.Enqueue (Sched.Enqueue q A) B))[q.length]? = some A ∧
    (Sched.DrainAll (Sched.Enqueue (Sched.Enqueue q A) B))[q.length + 1]? = some B ∧
    ∀ (t : Sched.Task) (rest : Sched.MemQueue), Sched.Dequeue (t :: rest) = some (t, rest) := by
  have hdrain : Sched.DrainAll (Sched.Enqueue (Sched.Enqueue q A) B) = q ++ [A, B] := by
    rw [Sched.DrainAll_eq]
    simp [Sched.Enqueue]
  refine ⟨hdrain, ?_, ?_, fun t rest => rfl⟩
  · rw [hdrain, List.getElem?_append_right (le_refl _)]
    simp
  · rw [hdrain, List.getElem?_append_right (by omega)]
    simp

/-! ## C6 — cycle detection is absent -/

/-- C6 (code bug). The spec requires a topological cycle check before any
task-run of a cyclic workflow is enqueued, marking the run failed with an
invalid-input cause. No such check exists in the source: `TriggerWorkflow`
never reads the workflow's `TaskDependency` rows and creates the run with
status pending. At the concrete cyclic input A→B→A (`cycDeps`, a cycle per
the spec-modelled `hasCycle`), the created run's status is pending, not
failed. -/
theorem trigger_no_cycle_check :
    Svc.hasCycle [1, 2] Svc.cycDeps = true ∧
    Svc.TriggeredRunStatus Svc.wfStore1 Svc.noRuns 7 8 9 = some .pending ∧
    some Svc.Status.pending ≠ some Svc.Status.failed := by
  decide

/-! ## C8 — DefaultBackoff and int64 overflow -/

/-- C8 (code bug). The documented table holds up to attempt 33 (1 s, 2 s,
4 s, …, 30 s cap), but `time.Duration(1<<uint(attempt)) * time.Second`
overflows int64 from attempt 34 on: `DefaultBackoff 34` is a negative
duration (−1266874889709551616 ns), not the claimed 30 s. -/
theorem defaultBackoff_overflow :
    Sched.DefaultBackoff 0 = Sched.secondNs ∧
    Sched.DefaultBackoff 1 = 2 * Sched.secondNs ∧
    Sched.DefaultBackoff 2 = 4 * Sched.secondNs ∧
    Sched.DefaultBackoff 3 = 8 * Sched.secondNs ∧
    Sched.DefaultBackoff 4 = 16 * Sched.secondNs ∧
    Sched.DefaultBackoff 5 = 30 * Sched.secondNs ∧
    Sched.DefaultBackoff 33 = 30 * Sched.secondNs ∧
    Sched.DefaultBackoff 34 = -1266874889709551616 ∧
    Sched.DefaultBackoff 34 ≠ 30 * Sched.secondNs := by
  refine ⟨by decide, by decide, by decide, by decide, by decide, by decide, ?_, ?_, ?_⟩ <;>
    decide

/-! ## C3 — Submit -/

/-- C3. Submit first validates: validity is exactly non-empty ID, non-empty
Name, Priority in 1..10 and non-negative MaxRetries; on violation it returns
the invalid sentinel wrapped with the violated rule and neither persists nor
enqueues (the returned value carries no new state); on success it persists the
task with status queued under its ID and appends that same record to the
queue, leaving every other repository entry unchanged. -/
theorem submit_spec (s : Sched.SchedState) (t : Sched.Task) (now : Nat) :
    (t.Validate = none ↔
      (t.id ≠ "" ∧ t.name ≠ "" ∧ 1 ≤ t.priority ∧ t.priority ≤ 10 ∧ 0 ≤ t.maxRetries)) ∧
    (∀ rule, t.Validate = some rule →
      Sched.Submit s t now = .error (.taskInvalid rule)) ∧
    (t.Validate = none →
      ∃ t' : Sched.Task,
        Sched.Submit s t now =
          .ok { repo := Sched.SaveTask s.repo t', queue := s.queue ++ [t'] } ∧
        t'.status = .queued ∧ t'.id = t.id ∧
        Sched.SaveTask s.repo t' t.id = some t' ∧
        ∀ i, i ≠ t.id → Sched.SaveTask s.repo t' i = s.repo i) := by
  refine ⟨?_, ?_, ?_⟩
  · unfold Sched.Task.Validate Sched.PriorityLow Sched.PriorityHigh
    split_ifs with h1 h2 h3 h4 <;> simp_all <;> omega
  · intro rule h
    simp [Sched.Submit, h]
  · intro h
    simp only [Sched.Submit, h]
    refine ⟨_, rfl, rfl, rfl, ?_, ?_⟩
    · simp [Sched.SaveTask]
    · intro i hi
      simp [Sched.SaveTask, hi]

/-- C3 witness: at the empty state the valid `sampleTask` is persisted and
enqueued with status queued, and `zeroPriorityTask` is rejected with the
priority rule wrapped in the invalid sentinel. -/
theorem submit_spec_witness :
    (∃ t' : Sched.Task,
      Sched.Submit Sched.emptySched Sched.sampleTask 5 =
        .ok { repo := Sched.SaveTask Sched.emptySched.repo t',
              queue := Sched.emptySched.queue ++ [t'] } ∧
      t'.status = .queued ∧ t'.id = Sched.sampleTask.id ∧
      Sched.SaveTask Sched.emptySched.repo t' Sched.sampleTask.id = some t' ∧
      ∀ i, i ≠ Sched.sampleTask.id →
        Sched.SaveTask Sched.emptySched.repo t' i = Sched.emptySched.repo i) ∧
    Sched.Submit Sched.emptySched Sched.zeroPriorityTask 5 =
      .error (.taskInvalid "task Priority must be between 1 and 10") :=
  ⟨(submit_spec Sched.emptySched Sched.sampleTask 5).2.2 (by decide),
   (submit_spec Sched.emptySched Sched.zeroPriorityTask 5).2.1 _ (by decide)⟩

/-! ## C10 — zero-value priority is rejected -/

/-- C10. A task whose Priority is outside 1..10 — in particular the zero
value 0 — never validates and can never be submitted; when the earlier ID and
Name rules pass, the violated rule is precisely the priority message, and
Submit wraps it in the invalid sentinel; conversely any task Submit accepts
has Priority between 1 and 10 inclusive. -/
theorem zero_priority_rejected (t : Sched.Task) :
    (t.priority < 1 ∨ t.priority > 10 →
      t.Validate ≠ none ∧ ∀ s now s', Sched.Submit s t now ≠ .ok s') ∧
    (t.priority = 0 → t.id ≠ "" → t.name ≠ "" →
      t.Validate = some "task Priority must be between 1 and 10" ∧
      ∀ s now, Sched.Submit s t now =
        .error (.taskInvalid "task Priority must be between 1 and 10")) ∧
    (∀ s now s', Sched.Submit s t now = .ok s' → 1 ≤ t.priority ∧ t.priority ≤ 10) := by
  refine ⟨?_, ?_, ?_⟩
  · intro hp
    have hv : t.Validate ≠ none := by
      unfold Sched.Task.Validate Sched.PriorityLow Sched.PriorityHigh
      split_ifs with h1 h2 h3 h4 <;> simp_all <;> omega
    refine ⟨hv, ?_⟩
    intro s now s'
    cases hveq : t.Validate with
    | none => exact absurd hveq hv
    | some rule => simp [Sched.Submit, hveq]
  · intro h0 hid hname
    have hv : t.Validate = some "task Priority must be between 1 and 10" := by
      unfold Sched.Task.Validate Sched.PriorityLow Sched.PriorityHigh
      rw [if_neg hid, if_neg hname, if_pos]
      rw [h0]
      omega
    exact ⟨hv, fun s now => by simp [Sched.Submit, hv]⟩
  · intro s now s' hok
    cases hveq : t.Validate with
    | some rule => simp [Sched.Submit, hveq] at hok
    | none =>
        unfold Sched.Task.Validate Sched.PriorityLow Sched.PriorityHigh at hveq
        split_ifs at hveq with h1 h2 h3 h4
        omega

/-- C10 witness: `zeroPriorityTask` (Priority left at 0, ID and Name
non-empty) fails validation with the priority rule and Submit rejects it
with the invalid sentinel at the empty state. -/
theorem zero_priority_rejected_witness :
    Sched.zeroPriorityTask.Validate = some "task Priority must be between 1 and 10" ∧
    ∀ s now, Sched.Submit s Sched.zeroPriorityTask now =
      .error (.taskInvalid "task Priority must be between 1 and 10") :=
  (zero_priority_rejected Sched.zeroPriorityTask).2.1 (by decide) (by decide) (by decide)

/-! ## C7 — TriggerWorkflow -/

/-- C7. TriggerWorkflow returns the not-found sentinel and creates no
WorkflowRun when the workflow does not exist; when it exists, it creates
exactly one new run — status pending, the given workflow ID, StartedAt set to
now, FinishedAt unset, stored under the fresh run ID — returns it, and leaves
every other entry of the run store unchanged. -/
theorem triggerWorkflow_spec (wfs : Svc.WorkflowStore) (runs : Svc.RunStore)
    (wfID newID now : Nat) :
    (wfs wfID = none →
      Svc.TriggerWorkflow wfs runs wfID newID now = .error .notFound) ∧
    (∀ wf, wfs wfID = some wf →
      ∃ run : Svc.WorkflowRun,
        Svc.TriggerWorkflow wfs runs wfID newID now = .ok (run, Svc.CreateRun runs run) ∧
        run.status = .pending ∧ run.workflowID = wfID ∧ run.startedAt = now ∧
        run.finishedAt = none ∧ run.id = newID ∧
        Svc.CreateRun runs run newID = some run ∧
        ∀ i, i ≠ newID → Svc.CreateRun runs run i = runs i) := by
  constructor
  · intro h
    simp [Svc.TriggerWorkflow, Svc.GetWorkflow, h]
  · intro wf h
    simp only [Svc.TriggerWorkflow, Svc.GetWorkflow, h]
    refine ⟨_, rfl, rfl, rfl, rfl, rfl, rfl, ?_, ?_⟩
    · simp [Svc.CreateRun]
    · intro i hi
      simp [Svc.CreateRun, hi]

/-- C7 witness: triggering the missing workflow 5 fails with not-found; for
the stored workflow 7 exactly one pending run with ID 8, StartedAt 9 and
FinishedAt unset is created and returned. -/
theorem triggerWorkflow_spec_witness :
    Svc.TriggerWorkflow Svc.wfStore1 Svc.noRuns 5 8 9 = .error .notFound ∧
    ∃ run : Svc.WorkflowRun,
      Svc.TriggerWorkflow Svc.wfStore1 Svc.noRuns 7 8 9 = .ok (run, Svc.CreateRun Svc.noRuns run) ∧
      run.status = .pending ∧ run.workflowID = 7 ∧ run.startedAt = 9 ∧
      run.finishedAt = none ∧ run.id = 8 ∧
      Svc.CreateRun Svc.noRuns run 8 = some run ∧
      ∀ i, i ≠ 8 → Svc.CreateRun Svc.noRuns run i = Svc.noRuns i :=
  ⟨(triggerWorkflow_spec Svc.wfStore1 Svc.noRuns 5 8 9).1 (by decide),
   (triggerWorkflow_spec Svc.wfStore1 Svc.noRuns 7 8 9).2 Svc.wfSample (by decide)⟩

/-! ## C9 — repository copies are shallow, not deep -/

/-- C9 counterexample. `cp := *tr` copies the `FinishedAt` pointer, not the
pointed-to `time.Time`: `GetByID` on `trStore1` returns the stored record
itself (same heap address 0); writing instant 99 through the returned
record's `FinishedAt` pointer changes what a subsequent get observes from
`(success, 1, 5)` to `(success, 1, 99)` — the stored state is mutated, so
the returned entity is not a deep-independent copy. -/
theorem mock_get_not_deep_independent :
    Svc.GetTaskRun Svc.trStore1 1 = .ok Svc.trSample ∧
    Svc.trSample.finishedAtPtr = some 0 ∧
    Svc.ObservedTaskRun Svc.heap5 Svc.trStore1 1 =
      some (Svc.Status.success, (1 : Int), some (5 : Nat)) ∧
    Svc.ObservedTaskRun (Svc.WriteHeap Svc.heap5 0 99) Svc.trStore1 1 =
      some (Svc.Status.success, (1 : Int), some (99 : Nat)) ∧
    some (Svc.Status.success, (1 : Int), some (99 : Nat)) ≠
      some (Svc.Status.success, (1 : Int), some (5 : Nat)) := by
  refine ⟨rfl, rfl, ?_, ?_, ?_⟩ <;> decide

/-- C9 (amended). Repository gets return shallow copies: the returned record
is a field-for-field copy of the stored one, so mutating its scalar fields
cannot touch the store, but the `FinishedAt` pointer is shared — writing a
value through the returned record's pointer is observed by every subsequent
get of the stored record. -/
theorem mock_copies_are_shallow (s : Svc.TaskRunStore) (h : Svc.Heap) (id a v : Nat)
    (tr : Svc.TaskRun) (hs : s id = some tr) (hp : tr.finishedAtPtr = some a) :
    Svc.GetTaskRun s id = .ok tr ∧
    Svc.ObservedTaskRun h s id = some (tr.status, tr.attempt, some (h a)) ∧
    Svc.ObservedTaskRun (Svc.WriteHeap h a v) s id = some (tr.status, tr.attempt, some v) := by
  refine ⟨?_, ?_, ?_⟩
  · simp [Svc.GetTaskRun, hs]
  · simp [Svc.ObservedTaskRun, hs, hp]
  · simp [Svc.ObservedTaskRun, hs, hp, Svc.WriteHeap]

/-- C9 (amended) witness at the concrete store `trStore1`, heap `heap5`,
address 0, new value 99. -/
theorem mock_copies_are_shallow_witness :
    Svc.GetTaskRun Svc.trStore1 1 = .ok Svc.trSample ∧
    Svc.ObservedTaskRun Svc.heap5 Svc.trStore1 1 =
      some (Svc.trSample.status, Svc.trSample.attempt, some (Svc.heap5 0)) ∧
    Svc.ObservedTaskRun (Svc.WriteHeap Svc.heap5 0 99) Svc.trStore1 1 =
      some (Svc.trSample.status, Svc.trSample.attempt, some 99) :=
  mock_copies_are_shallow Svc.trStore1 Svc.heap5 1 0 99 Svc.trSample (by decide) (by decide)

/-! ## C1 — status monotonicity -/

/-- C1 counterexample. Submit does not check the persisted status: after
`sampleTask` is submitted, dequeued and executed to success its persisted
status is terminal (succeeded), yet re-submitting the same task overwrites
the persisted status to queued — a terminal-to-queued transition caused by a
subsequent scheduler operation. -/
theorem terminal_status_overwritten_cex :
    (Sched.repoAfterRun "t1").map Sched.Task.status = some .succeeded ∧
    (Sched.repoAfterRun "t1").map Sched.Task.IsTerminal = some true ∧
    (Sched.afterResubmit.toOption.bind fun s => (s.repo "t1").map Sched.Task.status) =
      some .queued := by
  refine ⟨?_, ?_, ?_⟩ <;> decide

/-- C1 (amended). Cancel never changes a terminal persisted status — on a
terminal task it is a no-op returning the state unchanged; but Submit does
not check terminality: submitting any valid task with the same ID overwrites
the terminal persisted status with queued. -/
theorem status_monotonicity_amended (s : Sched.SchedState) (taskID : String) (now : Nat)
    (t : Sched.Task) (hfind : s.repo taskID = some t) (hterm : t.IsTerminal = true) :
    Sched.Cancel s taskID now = .ok s ∧
    ∀ u : Sched.Task, u.id = taskID → u.Validate = none →
      ∃ s', Sched.Submit s u now = .ok s' ∧
        (s'.repo taskID).map Sched.Task.status = some .queued := by
  constructor
  · simp [Sched.Cancel, hfind, hterm]
  · intro u hid hv
    simp only [Sched.Submit, hv]
    refine ⟨_, rfl, ?_⟩
    simp [Sched.SaveTask, hid]

/-- C1 (amended) witness: in `termState` the stored task "t1" is succeeded;
Cancel is a no-op there, and submitting `sampleTask` (same ID) yields a state
whose persisted "t1" is queued. -/
theorem status_monotonicity_amended_witness :
    Sched.Cancel Sched.termState "t1" 3 = .ok Sched.termState ∧
    ∃ s', Sched.Submit Sched.termState Sched.sampleTask 3 = .ok s' ∧
      (s'.repo "t1").map Sched.Task.status = some .queued :=
  ⟨(status_monotonicity_amended Sched.termState "t1" 3
      { Sched.sampleTask with status := .succeeded } (by decide) (by decide)).1,
   (status_monotonicity_amended Sched.termState "t1" 3
      { Sched.sampleTask with status := .succeeded } (by decide) (by decide)).2
      Sched.sampleTask rfl (by decide)⟩

/-! ## C4 — terminal iff FinishedAt -/

/-- C4 counterexample. Cancelling the queued task "t1" persists status
failed — a terminal status — while FinishedAt stays unset, so "status is
terminal iff FinishedAt is set" fails for records persisted by Cancel. -/
theorem cancel_terminal_without_finishedAt_cex :
    ((Sched.afterCancel.toOption.bind fun s => s.repo "t1").map
      fun u => (u.status, u.IsTerminal, u.finishedAt)) =
      some (.failed, true, none) := by
  decide

/-- C4 (amended). For a task that enters the worker's execute step with
FinishedAt unset, every record execute persists satisfies the invariant
(running and retrying records have FinishedAt unset, succeeded and failed
records have it set), and the record Submit persists is non-terminal with
FinishedAt unset; Cancel, however, persists a terminal (failed) record
without setting FinishedAt. -/
theorem terminal_iff_finished_amended (res : Option String) (t : Sched.Task) (now fin : Nat)
    (hfin : t.finishedAt = none) :
    (∀ r ∈ (Sched.Execute res t now fin).saves,
      (r.IsTerminal = true ↔ r.finishedAt ≠ none)) ∧
    (∀ s s' now', Sched.Submit s t now' = .ok s' →
      (s'.repo t.id).map (fun u => (u.IsTerminal, u.finishedAt)) = some (false, none)) := by
  constructor
  · cases res with
    | none =>
        intro r hr
        simp [Sched.Execute] at hr
        rcases hr with rfl | rfl <;> simp [Sched.Task.IsTerminal, hfin]
    | some msg =>
        intro r hr
        by_cases hc : t.retryCount < t.maxRetries
        · simp [Sched.Execute, Sched.Task.CanRetry, hc] at hr
          rcases hr with rfl | rfl <;> simp [Sched.Task.IsTerminal, hfin]
        · simp [Sched.Execute, Sched.Task.CanRetry, hc] at hr
          rcases hr with rfl | rfl <;> simp [Sched.Task.IsTerminal, hfin]
  · intro s s' now' hok
    cases hv : t.Validate with
    | some rule => simp [Sched.Submit, hv] at hok
    | none =>
        simp only [Sched.Submit, hv, Except.ok.injEq] at hok
        subst hok
        simp [Sched.SaveTask, Sched.Task.IsTerminal, hfin]

/-- C4 (amended) witness: a successful execute of `sampleTask` (FinishedAt
unset on entry) persists only invariant-respecting records, and submitting it
at the empty state persists a non-terminal record with FinishedAt unset. -/
theorem terminal_iff_finished_amended_witness :
    (∀ r ∈ (Sched.Execute none Sched.sampleTask 20 21).saves,
      (r.IsTerminal = true ↔ r.finishedAt ≠ none)) ∧
    (∀ s s' now', Sched.Submit s Sched.sampleTask now' = .ok s' →
      (s'.repo Sched.sampleTask.id).map (fun u => (u.IsTerminal, u.finishedAt)) =
        some (false, none)) :=
  terminal_iff_finished_amended none Sched.sampleTask 20 21 (by decide)

/-! ## C2 — exhausted retries -/

/-- With an always-failing handler the worker loop performs exactly
`MaxRetries − RetryCount` re-enqueues plus the final failing execute, so
`(MaxRetries − RetryCount).toNat + 1` handler invocations, and the final task
value is failed with FinishedAt set. -/
theorem runFailing_retry_loop (msg : String) (now : Nat) (t : Sched.Task) :
    (Sched.RunFailing msg now t).1 = (t.maxRetries - t.retryCount).toNat + 1 ∧
    (Sched.RunFailing msg now t).2.status = Sched.TaskStatus.failed ∧
    ∃ f, (Sched.RunFailing msg now t).2.finishedAt = some f := by
  induction now, t using Sched.RunFailing.induct msg with
  | case1 now t out hrq ih =>
      have hout : out = Sched.Execute (some msg) t now (now + 1) := rfl
      have hc : t.retryCount < t.maxRetries := by
        by_contra hc
        rw [hout] at hrq
        simp [Sched.Execute, Sched.Task.CanRetry, hc] at hrq
      have hmr : out.task.maxRetries = t.maxRetries := by
        rw [hout]
        simp [Sched.Execute, Sched.Task.CanRetry, hc]
      have hrc : out.task.retryCount = t.retryCount + 1 := by
        rw [hout]
        simp [Sched.Execute, Sched.Task.CanRetry, hc]
      obtain ⟨ih1, ih2, ih3⟩ := ih
      rw [Sched.RunFailing]
      rw [← hout]
      rw [dif_pos hrq]
      refine ⟨?_, ih2, ih3⟩
      show (Sched.RunFailing msg (now + 2) out.task).1 + 1 =
        (t.maxRetries - t.retryCount).toNat + 1
      rw [ih1, hmr, hrc]
      omega
  | case2 now t out hnr =>
      have hout : out = Sched.Execute (some msg) t now (now + 1) := rfl
      have hc : ¬ t.retryCount < t.maxRetries := by
        intro hc
        apply hnr
        rw [hout]
        simp [Sched.Execute, Sched.Task.CanRetry, hc]
      rw [Sched.RunFailing]
      rw [← hout]
      rw [dif_neg hnr]
      refine ⟨by omega, ?_, ?_⟩
      · rw [hout]
        simp [Sched.Execute, Sched.Task.CanRetry, hc]
      · rw [hout]
        refine ⟨now + 1, ?_⟩
        simp [Sched.Execute, Sched.Task.CanRetry, hc]

/-- C2. Exhausted retries: a task with MaxRetries = n and RetryCount = 0 and
an always-failing handler sees exactly n + 1 handler invocations (2 for
n = 1); after each non-final failure the execute step bumps RetryCount, sets
status retrying and re-enqueues the same task; the final invocation leaves
status failed with FinishedAt set (the last record it persists is that final
task value). -/
theorem exhausted_retries (n : Nat) (msg : String) (now : Nat) (t : Sched.Task)
    (hmax : t.maxRetries = (n : Int)) (hrc : t.retryCount = 0) :
    (Sched.RunFailing msg now t).1 = n + 1 ∧
    (Sched.RunFailing msg now t).2.status = .failed ∧
    (∃ f, (Sched.RunFailing msg now t).2.finishedAt = some f) ∧
    (n = 1 → (Sched.RunFailing msg now t).1 = 2) ∧
    (∀ (u : Sched.Task) (now' fin' : Nat), u.CanRetry = true →
      (Sched.Execute (some msg) u now' fin').requeued = true ∧
      (Sched.Execute (some msg) u now' fin').task.retryCount = u.retryCount + 1 ∧
      (Sched.Execute (some msg) u now' fin').task.status = .retrying) ∧
    (∀ (u : Sched.Task) (now' fin' : Nat), u.CanRetry = false →
      (Sched.Execute (some msg) u now' fin').requeued = false ∧
      (Sched.Execute (some msg) u now' fin').task.status = .failed ∧
      (Sched.Execute (some msg) u now' fin').task.finishedAt = some fin' ∧
      (Sched.Execute (some msg) u now' fin').saves.getLast? =
        some (Sched.Execute (some msg) u now' fin').task) := by
  obtain ⟨h1, h2, h3⟩ := runFailing_retry_loop msg now t
  have hcount : (Sched.RunFailing msg now t).1 = n + 1 := by
    rw [h1, hmax, hrc]
    omega
  refine ⟨hcount, h2, h3, fun hn => by rw [hcount, hn], ?_, ?_⟩
  · intro u now' fin' hu
    have hc : u.retryCount < u.maxRetries := by
      simpa [Sched.Task.CanRetry] using hu
    refine ⟨?_, ?_, ?_⟩ <;> simp [Sched.Execute, Sched.Task.CanRetry, hc]
  · intro u now' fin' hu
    have hc : ¬ u.retryCount < u.maxRetries := by
      simpa [Sched.Task.CanRetry] using hu
    refine ⟨?_, ?_, ?_, ?_⟩ <;> simp [Sched.Execute, Sched.Task.CanRetry, hc]

/-- C2 witness: `retryOnceTask` (MaxRetries = 1) with an always-failing
handler — exactly 2 handler invocations, final status failed, FinishedAt
set. -/
theorem exhausted_retries_witness :
    (Sched.RunFailing "boom" 0 Sched.retryOnceTask).1 = 2 ∧
    (Sched.RunFailing "boom" 0 Sched.retryOnceTask).2.status = .failed ∧
    ∃ f, (Sched.RunFailing "boom" 0 Sched.retryOnceTask).2.finishedAt = some f :=
  ⟨(exhausted_retries 1 "boom" 0 Sched.retryOnceTask (by decide) (by decide)).1,
   (exhausted_retries 1 "boom" 0 Sched.retryOnceTask (by decide) (by decide)).2.1,
   (exhausted_retries 1 "boom" 0 Sched.retryOnceTask (by decide) (by decide)).2.2.1⟩
